import Mathlib

/-!
# Verification of the SimuladorBuracoNegro core

Shallow embedding, over the real numbers, of the C++ sources of the
Schwarzschild black-hole renderer: the metric and its Christoffel symbols
(`schwarzschild.hpp`), the RK4 geodesic integrator (`integrador.hpp`), the
Shakura–Sunyaev accretion disk (`disco_acrecao.hpp`) and the relativistic
ray tracer with its PPM sink (`ray_tracer.hpp`).  `double` arithmetic is
modelled as exact real arithmetic; the multi-threaded row renderer is
modelled by the (deterministic) list of row indices each thread writes.
-/

namespace BuracoNegro

open Real

/-! ## Physical constants (`constantes.hpp`) -/

/-- Speed of light in vacuum (m/s). -/
noncomputable def Cluz : ℝ := 299792458

/-- `C2 = C * C` from `constantes.hpp`. -/
noncomputable def C2 : ℝ := Cluz * Cluz

/-- Gravitational constant. -/
noncomputable def Gconst : ℝ := 6.67430e-11

/-- Solar mass in kg. -/
noncomputable def MASSA_SOL : ℝ := 1.98892e30

/-- Stefan–Boltzmann constant (the `SIGMA_SB` member of `DiscoAcrecao`). -/
noncomputable def SIGMA_SB : ℝ := 5.670374419e-8

/-! ## Schwarzschild metric (`schwarzschild.hpp`) -/

/-- The fields of the C++ class `MetricaSchwarzschild`: mass in kg, geometric
mass `M = G·m/c²`, and Schwarzschild radius `rs = 2M`. -/
structure MetricaSchwarzschild where
  massa_kg : ℝ
  M : ℝ
  rs : ℝ

/-- The `MetricaSchwarzschild(massa_solar)` constructor. -/
noncomputable def MetricaSchwarzschild.build (massa_solar : ℝ) : MetricaSchwarzschild :=
  let mkg := massa_solar * MASSA_SOL
  let m := Gconst * mkg / C2
  { massa_kg := mkg, M := m, rs := 2 * m }

/-- `g_tt(r)`: `0` at or inside the horizon, else `-(1 - rs/r)`. -/
noncomputable def g_tt (m : MetricaSchwarzschild) (r : ℝ) : ℝ :=
  if r ≤ m.rs then 0 else -(1 - m.rs / r)

/-- `g_rr(r)`: the `1e10` sentinel at or inside the horizon, else `1/(1 - rs/r)`. -/
noncomputable def g_rr (m : MetricaSchwarzschild) (r : ℝ) : ℝ :=
  if r ≤ m.rs then 1e10 else 1 / (1 - m.rs / r)

/-- `g_θθ(r) = r²`. -/
noncomputable def g_theta_theta (r : ℝ) : ℝ := r * r

/-- `g_φφ(r, θ) = r² sin²θ`. -/
noncomputable def g_phi_phi (r theta : ℝ) : ℝ := r * r * Real.sin theta * Real.sin theta

/-- `Γ^t_{tr}`, zero-guarded at `r ≤ rs`. -/
noncomputable def christoffel_t_tr (m : MetricaSchwarzschild) (r : ℝ) : ℝ :=
  if r ≤ m.rs then 0 else m.rs / (2 * r * (r - m.rs))

/-- `Γ^r_{tt}`, zero-guarded at `r ≤ rs`. -/
noncomputable def christoffel_r_tt (m : MetricaSchwarzschild) (r : ℝ) : ℝ :=
  if r ≤ m.rs then 0 else m.rs * (r - m.rs) / (2 * r * r * r)

/-- `Γ^r_{rr}`, zero-guarded at `r ≤ rs`. -/
noncomputable def christoffel_r_rr (m : MetricaSchwarzschild) (r : ℝ) : ℝ :=
  if r ≤ m.rs then 0 else -m.rs / (2 * r * (r - m.rs))

/-- `Γ^r_{θθ} = -(r - rs)` (no guard in the source). -/
noncomputable def christoffel_r_theta_theta (m : MetricaSchwarzschild) (r : ℝ) : ℝ :=
  -(r - m.rs)

/-- `Γ^r_{φφ} = -(r - rs) sin²θ`. -/
noncomputable def christoffel_r_phi_phi (m : MetricaSchwarzschild) (r theta : ℝ) : ℝ :=
  -(r - m.rs) * Real.sin theta * Real.sin theta

/-- `Γ^θ_{rθ} = 1/r`. -/
noncomputable def christoffel_theta_r_theta (r : ℝ) : ℝ := 1 / r

/-- `Γ^θ_{φφ} = -sin θ cos θ`. -/
noncomputable def christoffel_theta_phi_phi (theta : ℝ) : ℝ :=
  -Real.sin theta * Real.cos theta

/-- `Γ^φ_{rφ} = 1/r`. -/
noncomputable def christoffel_phi_r_phi (r : ℝ) : ℝ := 1 / r

/-- `Γ^φ_{θφ} = cot θ` (the source computes `1.0 / std::tan(theta)`). -/
noncomputable def christoffel_phi_theta_phi (theta : ℝ) : ℝ := 1 / Real.tan theta

/-! ## Geodesic state (`integrador.hpp`) -/

/-- The 8-dimensional integration state `EstadoGeodesica`:
position `(t, r, θ, φ)` and four-velocity `(u^t, u^r, u^θ, u^φ)`. -/
@[ext]
structure EstadoGeodesica where
  t : ℝ
  r : ℝ
  theta : ℝ
  phi : ℝ
  u_t : ℝ
  u_r : ℝ
  u_theta : ℝ
  u_phi : ℝ

instance : Add EstadoGeodesica :=
  ⟨fun a b => ⟨a.t + b.t, a.r + b.r, a.theta + b.theta, a.phi + b.phi,
    a.u_t + b.u_t, a.u_r + b.u_r, a.u_theta + b.u_theta, a.u_phi + b.u_phi⟩⟩

instance : SMul ℝ EstadoGeodesica :=
  ⟨fun c a => ⟨c * a.t, c * a.r, c * a.theta, c * a.phi,
    c * a.u_t, c * a.u_r, c * a.u_theta, c * a.u_phi⟩⟩

theorem EstadoGeodesica.add_def (a b : EstadoGeodesica) :
    a + b = ⟨a.t + b.t, a.r + b.r, a.theta + b.theta, a.phi + b.phi,
      a.u_t + b.u_t, a.u_r + b.u_r, a.u_theta + b.u_theta, a.u_phi + b.u_phi⟩ := rfl

theorem EstadoGeodesica.smul_def (c : ℝ) (a : EstadoGeodesica) :
    c • a = ⟨c * a.t, c * a.r, c * a.theta, c * a.phi,
      c * a.u_t, c * a.u_r, c * a.u_theta, c * a.u_phi⟩ := rfl

/-- `MetricaSchwarzschild::derivadas_geodesica`: the right-hand side of the
geodesic equation over the 8-state.  Slots 0–3 are the four-velocity, slots
4–7 the accelerations `-Γ^μ_{αβ} u^α u^β` with the symmetric pairs doubled
exactly as the source writes them. -/
noncomputable def derivadas_geodesica (m : MetricaSchwarzschild)
    (s : EstadoGeodesica) : EstadoGeodesica :=
  { t := s.u_t
    r := s.u_r
    theta := s.u_theta
    phi := s.u_phi
    u_t := -2 * christoffel_t_tr m s.r * s.u_t * s.u_r
    u_r := -christoffel_r_tt m s.r * s.u_t * s.u_t
      - christoffel_r_rr m s.r * s.u_r * s.u_r
      - christoffel_r_theta_theta m s.r * s.u_theta * s.u_theta
      - christoffel_r_phi_phi m s.r s.theta * s.u_phi * s.u_phi
    u_theta := -2 * christoffel_theta_r_theta s.r * s.u_r * s.u_theta
      - christoffel_theta_phi_phi s.theta * s.u_phi * s.u_phi
    u_phi := -2 * christoffel_phi_r_phi s.r * s.u_r * s.u_phi
      - 2 * christoffel_phi_theta_phi s.theta * s.u_theta * s.u_phi }

/-- The componentwise update `y[i] = arr[i] + c * k[i]` used for the three
intermediate RK4 states (`c` is `0.5 * passo` or `passo`). -/
noncomputable def avanca (s : EstadoGeodesica) (c : ℝ) (k : EstadoGeodesica) :
    EstadoGeodesica :=
  ⟨s.t + c * k.t, s.r + c * k.r, s.theta + c * k.theta, s.phi + c * k.phi,
   s.u_t + c * k.u_t, s.u_r + c * k.u_r, s.u_theta + c * k.u_theta,
   s.u_phi + c * k.u_phi⟩

/-- The final RK4 combination loop
`novo[i] = arr[i] + passo * (k1[i] + 2 k2[i] + 2 k3[i] + k4[i]) / 6`. -/
noncomputable def combina (s : EstadoGeodesica) (passo : ℝ)
    (k1 k2 k3 k4 : EstadoGeodesica) : EstadoGeodesica :=
  ⟨s.t + passo * (k1.t + 2 * k2.t + 2 * k3.t + k4.t) / 6,
   s.r + passo * (k1.r + 2 * k2.r + 2 * k3.r + k4.r) / 6,
   s.theta + passo * (k1.theta + 2 * k2.theta + 2 * k3.theta + k4.theta) / 6,
   s.phi + passo * (k1.phi + 2 * k2.phi + 2 * k3.phi + k4.phi) / 6,
   s.u_t + passo * (k1.u_t + 2 * k2.u_t + 2 * k3.u_t + k4.u_t) / 6,
   s.u_r + passo * (k1.u_r + 2 * k2.u_r + 2 * k3.u_r + k4.u_r) / 6,
   s.u_theta + passo * (k1.u_theta + 2 * k2.u_theta + 2 * k3.u_theta + k4.u_theta) / 6,
   s.u_phi + passo * (k1.u_phi + 2 * k2.u_phi + 2 * k3.u_phi + k4.u_phi) / 6⟩

/-- `IntegradorGeodesico::passo_rk4`, with the step size `passo_` passed
explicitly (the tracer resets it before every step). -/
noncomputable def passo_rk4 (m : MetricaSchwarzschild) (passo : ℝ)
    (estado : EstadoGeodesica) : EstadoGeodesica :=
  let k1 := derivadas_geodesica m estado
  let k2 := derivadas_geodesica m (avanca estado (0.5 * passo) k1)
  let k3 := derivadas_geodesica m (avanca estado (0.5 * passo) k2)
  let k4 := derivadas_geodesica m (avanca estado passo k3)
  combina estado passo k1 k2 k3 k4

/-! ## Helper lemmas for the RK4 shape -/

theorem avanca_eq_smul (s : EstadoGeodesica) (c : ℝ) (k : EstadoGeodesica) :
    avanca s c k = s + c • k := by
  simp only [avanca, EstadoGeodesica.smul_def, EstadoGeodesica.add_def]

/-- **C1.** One call of `IntegradorGeodesico::passo_rk4` with step `h` returns
`s + (h/6)·(k1 + 2 k2 + 2 k3 + k4)`, where `k1 = f(s)`, `k2 = f(s + 0.5 h k1)`,
`k3 = f(s + 0.5 h k2)`, `k4 = f(s + h k3)` and `f` is the Schwarzschild
geodesic derivative; moreover `f` maps the 8-state to
`(u^t, u^r, u^θ, u^φ, a^t, a^r, a^θ, a^φ)` with `a^μ = -Γ^μ_{αβ} u^α u^β`
and the symmetric Christoffel pairs doubled. -/
theorem passo_rk4_eq_rk4_spec (m : MetricaSchwarzschild) (h : ℝ)
    (s : EstadoGeodesica) :
    (passo_rk4 m h s =
      s + (h / 6) •
        (derivadas_geodesica m s
          + (2:ℝ) • derivadas_geodesica m
              (s + (0.5 * h) • derivadas_geodesica m s)
          + (2:ℝ) • derivadas_geodesica m
              (s + (0.5 * h) • derivadas_geodesica m
                (s + (0.5 * h) • derivadas_geodesica m s))
          + derivadas_geodesica m
              (s + h • derivadas_geodesica m
                (s + (0.5 * h) • derivadas_geodesica m
                  (s + (0.5 * h) • derivadas_geodesica m s)))))
    ∧ derivadas_geodesica m s =
      { t := s.u_t, r := s.u_r, theta := s.u_theta, phi := s.u_phi
        u_t := -2 * christoffel_t_tr m s.r * s.u_t * s.u_r
        u_r := -christoffel_r_tt m s.r * s.u_t * s.u_t
          - christoffel_r_rr m s.r * s.u_r * s.u_r
          - christoffel_r_theta_theta m s.r * s.u_theta * s.u_theta
          - christoffel_r_phi_phi m s.r s.theta * s.u_phi * s.u_phi
        u_theta := -2 * christoffel_theta_r_theta s.r * s.u_r * s.u_theta
          - christoffel_theta_phi_phi s.theta * s.u_phi * s.u_phi
        u_phi := -2 * christoffel_phi_r_phi s.r * s.u_r * s.u_phi
          - 2 * christoffel_phi_theta_phi s.theta * s.u_theta * s.u_phi } := by
  constructor
  · show combina s h _ _ _ _ = _
    rw [avanca_eq_smul, avanca_eq_smul, avanca_eq_smul]
    ext <;>
      simp only [combina, EstadoGeodesica.add_def, EstadoGeodesica.smul_def] <;>
      ring
  · rfl

/-! ## Accretion disk (`disco_acrecao.hpp`) -/

/-- RGB colour used by the disk model (`CorRGB`). -/
structure CorRGB where
  r : ℝ
  g : ℝ
  b : ℝ

/-- `CorRGB::clamp`: each channel clamped to `[0, 1]`. -/
noncomputable def CorRGB.clampada (c : CorRGB) : CorRGB :=
  ⟨max 0 (min 1 c.r), max 0 (min 1 c.g), max 0 (min 1 c.b)⟩

/-- `CorRGB::operator*`. -/
noncomputable def CorRGB.escala (c : CorRGB) (s : ℝ) : CorRGB :=
  ⟨c.r * s, c.g * s, c.b * s⟩

/-- The fields of the C++ class `DiscoAcrecao`. -/
structure DiscoAcrecao where
  massa_bh : ℝ
  taxa_acrecao : ℝ
  raio_interno : ℝ
  raio_externo : ℝ
  spin : ℝ

/-- The `DiscoAcrecao(massa_solar, taxa_eddington, spin)` constructor: clamps
the spin to `[0, 0.998]`, derives the ISCO (with the Kerr branch for
`spin ≥ 0.01`), sets `r_out = 500 rs`, and derives the accretion rate from
the Eddington fraction with efficiency `0.1`. -/
noncomputable def DiscoAcrecao.build (massa_solar taxa_eddington spin : ℝ) :
    DiscoAcrecao :=
  let mbh := massa_solar * MASSA_SOL
  let sp := max 0 (min 0.998 spin)
  let rs := 2 * Gconst * mbh / C2
  let ri := if sp < 0.01 then 3 * rs
    else rs * (3 + sp - Real.sqrt ((3 - sp) * (1 + sp)))
  { massa_bh := mbh
    taxa_acrecao := taxa_eddington * (1.26e38 * massa_solar) / (0.1 * C2)
    raio_interno := ri
    raio_externo := 500 * rs
    spin := sp }

/-- `DiscoAcrecao::temperatura`: the Shakura–Sunyaev profile, zero outside
`[r_in, r_out]`. -/
noncomputable def temperatura (d : DiscoAcrecao) (raio : ℝ) : ℝ :=
  if raio < d.raio_interno ∨ raio > d.raio_externo then 0
  else
    let T_estrela := (3 * Gconst * d.massa_bh * d.taxa_acrecao /
      (8 * Real.pi * SIGMA_SB * d.raio_interno ^ 3)) ^ (0.25 : ℝ)
    let x := raio / d.raio_interno
    let fator_radial := x ^ (-0.75 : ℝ)
    let fator_borda := (1 - Real.sqrt (1 / x)) ^ (0.25 : ℝ)
    T_estrela * fator_radial * fator_borda

/-- `DiscoAcrecao::cor_corpo_negro`: blackbody-to-RGB approximation on
`t = T/100`, clamped channelwise. -/
noncomputable def cor_corpo_negro (T : ℝ) : CorRGB :=
  if T ≤ 0 then ⟨0, 0, 0⟩
  else
    let t := T / 100
    let r := if t ≤ 66 then 1
      else 1.29293618606274 * (t - 60) ^ (-0.1332047592 : ℝ)
    let g := if t ≤ 66 then 0.390081578769871 * Real.log t - 0.631841443788627
      else 1.12989086089529 * (t - 60) ^ (-0.0755148492 : ℝ)
    let b := if t ≥ 66 then 1
      else if t ≤ 19 then 0
      else 0.543206789110196 * Real.log (t - 10) - 1.19625408914
    CorRGB.clampada ⟨r, g, b⟩

/-- `DiscoAcrecao::fator_redshift`: `√(1 - rs/r)` for `r > rs`, else `0`. -/
noncomputable def fator_redshift (d : DiscoAcrecao) (raio : ℝ) : ℝ :=
  let rs := 2 * Gconst * d.massa_bh / C2
  if raio ≤ rs then 0 else Real.sqrt (1 - rs / raio)

/-- `DiscoAcrecao::velocidade_kepleriana`: `√(GM/r)`. -/
noncomputable def velocidade_kepleriana (d : DiscoAcrecao) (raio : ℝ) : ℝ :=
  Real.sqrt (Gconst * d.massa_bh / raio)

/-- `DiscoAcrecao::fator_doppler`: `1 / (γ (1 - β cos φ))` with
`β = v_K/c` and `γ = 1/√(1-β²)`. -/
noncomputable def fator_doppler (d : DiscoAcrecao) (raio angulo_observador : ℝ) : ℝ :=
  let beta := velocidade_kepleriana d raio / Cluz
  let gamma := 1 / Real.sqrt (1 - beta * beta)
  1 / (gamma * (1 - beta * Real.cos angulo_observador))

/-- `DiscoAcrecao::intensidade_observada`: blackbody colour scaled by
`(D·z)⁴`. -/
noncomputable def intensidade_observada (d : DiscoAcrecao) (raio angulo_obs : ℝ) :
    CorRGB :=
  if temperatura d raio ≤ 0 then ⟨0, 0, 0⟩
  else
    CorRGB.escala (cor_corpo_negro (temperatura d raio))
      ((fator_doppler d raio angulo_obs * fator_redshift d raio) ^ (4 : ℕ))

/-- `DiscoAcrecao::no_disco`: `r_in ≤ r ≤ r_out`. -/
def no_disco (d : DiscoAcrecao) (raio : ℝ) : Prop :=
  d.raio_interno ≤ raio ∧ raio ≤ d.raio_externo

/-! ## C4: the temperature annulus -/

/-- **C4, counterexample.** For the disk built from the default configuration
(`10 M☉`, Eddington fraction `0.1`, spin `0`), the inner radius lies inside
the closed annulus, yet `T(r_in) = 0`, refuting `T(r) > 0` on the closed
annulus `[r_in, r_out]`. -/
theorem temperatura_zero_no_raio_interno :
    (DiscoAcrecao.build 10 0.1 0).raio_interno ≤
      (DiscoAcrecao.build 10 0.1 0).raio_externo ∧
    temperatura (DiscoAcrecao.build 10 0.1 0)
      (DiscoAcrecao.build 10 0.1 0).raio_interno = 0 := by
  have hri : (DiscoAcrecao.build 10 0.1 0).raio_interno =
      3 * (2 * Gconst * (10 * MASSA_SOL) / C2) := by
    simp only [DiscoAcrecao.build]
    norm_num
  have hre : (DiscoAcrecao.build 10 0.1 0).raio_externo =
      500 * (2 * Gconst * (10 * MASSA_SOL) / C2) := by
    simp only [DiscoAcrecao.build]
  have hrs : (0:ℝ) < 2 * Gconst * (10 * MASSA_SOL) / C2 := by
    unfold Gconst MASSA_SOL C2 Cluz
    norm_num
  constructor
  · rw [hri, hre]
    nlinarith
  · unfold temperatura
    rw [if_neg]
    · have hne : (DiscoAcrecao.build 10 0.1 0).raio_interno ≠ 0 := by
        rw [hri]; positivity
      have hx : (DiscoAcrecao.build 10 0.1 0).raio_interno /
          (DiscoAcrecao.build 10 0.1 0).raio_interno = 1 := div_self hne
      rw [hx]
      norm_num [Real.sqrt_one]
    · push_neg
      refine ⟨le_refl _, ?_⟩
      rw [hri, hre]; nlinarith

/-- **C4 (amended).** For a disk with positive mass, accretion rate and inner
radius and `r_in ≤ r_out`: `T(r) > 0` on the half-open annulus
`(r_in, r_out]`, `T(r) = 0` outside the annulus, and `T` vanishes
continuously at the inner edge: `T(r_in) = 0` and `T` is continuous at
`r_in`. -/
theorem temperatura_anel (d : DiscoAcrecao) (r : ℝ)
    (hM : 0 < d.massa_bh) (hMd : 0 < d.taxa_acrecao)
    (hri : 0 < d.raio_interno) (hre : d.raio_interno ≤ d.raio_externo) :
    (d.raio_interno < r → r ≤ d.raio_externo → 0 < temperatura d r) ∧
    (r < d.raio_interno ∨ d.raio_externo < r → temperatura d r = 0) ∧
    temperatura d d.raio_interno = 0 ∧
    ContinuousAt (temperatura d) d.raio_interno := by
  have hG : (0:ℝ) < Gconst := by unfold Gconst; norm_num
  have hS : (0:ℝ) < SIGMA_SB := by unfold SIGMA_SB; norm_num
  have hzero : temperatura d d.raio_interno = 0 := by
    unfold temperatura
    rw [if_neg (by push_neg; exact ⟨le_refl _, hre⟩)]
    have hx : d.raio_interno / d.raio_interno = 1 := div_self (ne_of_gt hri)
    rw [hx]
    norm_num [Real.sqrt_one]
  refine ⟨?_, ?_, hzero, ?_⟩
  · intro h1 h2
    have hr0 : 0 < r := lt_trans hri h1
    unfold temperatura
    rw [if_neg (by push_neg; exact ⟨le_of_lt h1, h2⟩)]
    have hx1 : 1 < r / d.raio_interno := (one_lt_div hri).mpr h1
    have hbase : 0 < 3 * Gconst * d.massa_bh * d.taxa_acrecao /
        (8 * Real.pi * SIGMA_SB * d.raio_interno ^ 3) := by
      have hpi := Real.pi_pos
      positivity
    have hborda : 0 < 1 - Real.sqrt (1 / (r / d.raio_interno)) := by
      have hlt : 1 / (r / d.raio_interno) < 1 := by
        rw [div_lt_one (lt_trans one_pos hx1)]; exact hx1
      have := Real.sqrt_lt_sqrt (by positivity) hlt
      rw [Real.sqrt_one] at this
      linarith
    exact mul_pos (mul_pos (Real.rpow_pos_of_pos hbase _)
      (Real.rpow_pos_of_pos (lt_trans one_pos hx1) _))
      (Real.rpow_pos_of_pos hborda _)
  · intro h
    unfold temperatura
    rw [if_pos]
    exact h
  · -- Continuity at the inner edge.
    have hdiv : Filter.Tendsto (fun x : ℝ => x / d.raio_interno)
        (nhds d.raio_interno) (nhds 1) := by
      have h := (continuous_id.div_const d.raio_interno).tendsto d.raio_interno
      simp only [id_eq] at h
      rwa [div_self (ne_of_gt hri)] at h
    have h1 : Filter.Tendsto (fun x : ℝ => (x / d.raio_interno) ^ (-0.75 : ℝ))
        (nhds d.raio_interno) (nhds 1) := by
      have hc := (Real.continuousAt_rpow_const 1 (-0.75) (Or.inl one_ne_zero)).tendsto
      rw [Real.one_rpow] at hc
      exact hc.comp hdiv
    have hinv : Filter.Tendsto (fun x : ℝ => 1 / (x / d.raio_interno))
        (nhds d.raio_interno) (nhds 1) := by
      have hc := (continuousAt_inv₀ (one_ne_zero : (1:ℝ) ≠ 0)).tendsto
      rw [inv_one] at hc
      have h := hc.comp hdiv
      simpa [Function.comp_def, one_div, inv_div] using h
    have hsqrt : Filter.Tendsto (fun x : ℝ => Real.sqrt (1 / (x / d.raio_interno)))
        (nhds d.raio_interno) (nhds 1) := by
      have hc := Real.continuous_sqrt.tendsto 1
      rw [Real.sqrt_one] at hc
      exact hc.comp hinv
    have hsub : Filter.Tendsto
        (fun x : ℝ => 1 - Real.sqrt (1 / (x / d.raio_interno)))
        (nhds d.raio_interno) (nhds 0) := by
      have h := (tendsto_const_nhds (x := (1:ℝ))).sub hsqrt
      simpa using h
    have hq : Filter.Tendsto
        (fun x : ℝ => (1 - Real.sqrt (1 / (x / d.raio_interno))) ^ (0.25 : ℝ))
        (nhds d.raio_interno) (nhds 0) := by
      have hc := (Real.continuousAt_rpow_const 0 0.25
        (Or.inr (by norm_num))).tendsto
      rw [Real.zero_rpow (by norm_num : (0.25:ℝ) ≠ 0)] at hc
      exact hc.comp hsub
    have hg : Filter.Tendsto (fun x : ℝ =>
        (3 * Gconst * d.massa_bh * d.taxa_acrecao /
          (8 * Real.pi * SIGMA_SB * d.raio_interno ^ 3)) ^ (0.25 : ℝ) *
        (x / d.raio_interno) ^ (-0.75 : ℝ) *
        (1 - Real.sqrt (1 / (x / d.raio_interno))) ^ (0.25 : ℝ))
        (nhds d.raio_interno) (nhds 0) := by
      have h := ((tendsto_const_nhds
        (x := (3 * Gconst * d.massa_bh * d.taxa_acrecao /
          (8 * Real.pi * SIGMA_SB * d.raio_interno ^ 3)) ^ (0.25 : ℝ))).mul
        h1).mul hq
      simpa using h
    have key : Filter.Tendsto (temperatura d) (nhds d.raio_interno) (nhds 0) := by
      rw [← nhds_left_sup_nhds_right d.raio_interno, Filter.tendsto_sup]
      constructor
      · -- left of r_in the profile is the constant 0
        refine Filter.Tendsto.congr' ?_ tendsto_const_nhds
        filter_upwards [self_mem_nhdsWithin] with x hx
        rcases lt_or_eq_of_le (Set.mem_Iic.mp hx) with hlt | heq
        · show (0:ℝ) = temperatura d x
          unfold temperatura
          rw [if_pos (Or.inl hlt)]
        · rw [heq]
          exact hzero.symm
      · rcases eq_or_lt_of_le hre with heqo | hlto
        · -- degenerate annulus r_in = r_out: the profile is 0 on Ici r_in
          refine Filter.Tendsto.congr' ?_ tendsto_const_nhds
          filter_upwards [self_mem_nhdsWithin] with x hx
          rcases eq_or_lt_of_le (Set.mem_Ici.mp hx) with heq | hgt
          · rw [← heq]
            exact hzero.symm
          · show (0:ℝ) = temperatura d x
            unfold temperatura
            rw [if_pos (Or.inr (by rw [← heqo]; exact hgt))]
        · -- proper annulus: the profile agrees with the product near r_in
          refine Filter.Tendsto.congr' ?_ (hg.mono_left nhdsWithin_le_nhds)
          filter_upwards [self_mem_nhdsWithin,
            mem_nhdsWithin_of_mem_nhds (Iio_mem_nhds hlto)] with x hx1 hx2
          show _ = temperatura d x
          unfold temperatura
          rw [if_neg (by
            push_neg
            exact ⟨Set.mem_Ici.mp hx1, le_of_lt (Set.mem_Iio.mp hx2)⟩)]
    rw [ContinuousAt, hzero]
    exact key

/-- Witness for C4 (amended): a concrete radius `4 r_s` lying strictly inside
the annulus of the default disk has positive temperature. -/
theorem temperatura_anel_witness :
    0 < temperatura (DiscoAcrecao.build 10 0.1 0)
      (4 * (2 * Gconst * (10 * MASSA_SOL) / C2)) := by
  have hrs : (0:ℝ) < 2 * Gconst * (10 * MASSA_SOL) / C2 := by
    unfold Gconst MASSA_SOL C2 Cluz; norm_num
  have hri : (DiscoAcrecao.build 10 0.1 0).raio_interno =
      3 * (2 * Gconst * (10 * MASSA_SOL) / C2) := by
    simp only [DiscoAcrecao.build]; norm_num
  have hre : (DiscoAcrecao.build 10 0.1 0).raio_externo =
      500 * (2 * Gconst * (10 * MASSA_SOL) / C2) := by
    simp only [DiscoAcrecao.build]
  have h := temperatura_anel (DiscoAcrecao.build 10 0.1 0)
    (4 * (2 * Gconst * (10 * MASSA_SOL) / C2))
    (by simp only [DiscoAcrecao.build]
        unfold MASSA_SOL; norm_num)
    (by simp only [DiscoAcrecao.build]
        unfold C2 Cluz; norm_num)
    (by rw [hri]; positivity)
    (by rw [hri, hre]; nlinarith)
  exact h.1 (by rw [hri]; nlinarith) (by rw [hre]; nlinarith)

/-! ## C10: the Doppler factor is safe on the disk -/

/-- **C10.** For `r ≥ 3 r_s` (the ISCO and beyond) and positive mass, the
Keplerian speed fraction satisfies `β² = r_s/(2r) ≤ 1/6 < 1`, so the Lorentz
factor's radicand `1 - β²` is strictly positive and, for every sight angle,
`DiscoAcrecao::fator_doppler` is strictly positive. -/
theorem fator_doppler_pos (d : DiscoAcrecao) (r phi : ℝ)
    (hM : 0 < d.massa_bh)
    (hr : 3 * (2 * Gconst * d.massa_bh / C2) ≤ r) :
    (velocidade_kepleriana d r / Cluz) ^ 2 =
      (2 * Gconst * d.massa_bh / C2) / (2 * r) ∧
    (velocidade_kepleriana d r / Cluz) ^ 2 ≤ 1 / 6 ∧
    0 < 1 - (velocidade_kepleriana d r / Cluz) ^ 2 ∧
    0 < fator_doppler d r phi := by
  have hG : (0:ℝ) < Gconst := by unfold Gconst; norm_num
  have hC : (0:ℝ) < Cluz := by unfold Cluz; norm_num
  have hC2 : C2 = Cluz * Cluz := rfl
  have hrs : (0:ℝ) < 2 * Gconst * d.massa_bh / C2 := by
    rw [hC2]; positivity
  have hr0 : (0:ℝ) < r := lt_of_lt_of_le (by linarith) hr
  have hv2 : velocidade_kepleriana d r ^ 2 = Gconst * d.massa_bh / r := by
    unfold velocidade_kepleriana
    exact Real.sq_sqrt (le_of_lt (by positivity))
  have hbeta2 : (velocidade_kepleriana d r / Cluz) ^ 2 =
      (2 * Gconst * d.massa_bh / C2) / (2 * r) := by
    rw [div_pow, hv2, hC2]
    field_simp
    ring
  have hle : (velocidade_kepleriana d r / Cluz) ^ 2 ≤ 1 / 6 := by
    rw [hbeta2, div_le_div_iff₀ (by linarith) (by norm_num)]
    linarith
  have hpos : 0 < 1 - (velocidade_kepleriana d r / Cluz) ^ 2 := by linarith
  refine ⟨hbeta2, hle, hpos, ?_⟩
  unfold fator_doppler
  have hb0 : 0 ≤ velocidade_kepleriana d r / Cluz :=
    div_nonneg (Real.sqrt_nonneg _) (le_of_lt hC)
  have hbb : velocidade_kepleriana d r / Cluz *
      (velocidade_kepleriana d r / Cluz) =
      (velocidade_kepleriana d r / Cluz) ^ 2 := by ring
  have hb1 : velocidade_kepleriana d r / Cluz < 1 := by
    nlinarith
  have hsq : 0 < Real.sqrt (1 - velocidade_kepleriana d r / Cluz *
      (velocidade_kepleriana d r / Cluz)) := by
    rw [hbb]
    exact Real.sqrt_pos.mpr hpos
  have hden : 0 < 1 - velocidade_kepleriana d r / Cluz * Real.cos phi := by
    nlinarith [Real.cos_le_one phi,
      mul_le_mul_of_nonneg_left (Real.cos_le_one phi) hb0]
  positivity

/-- Witness for C10: the default disk at its inner radius `3 r_s`, sight
angle `0`. -/
theorem fator_doppler_pos_witness :
    0 < fator_doppler (DiscoAcrecao.build 10 0.1 0)
      (3 * (2 * Gconst * (10 * MASSA_SOL) / C2)) 0 := by
  have h := fator_doppler_pos (DiscoAcrecao.build 10 0.1 0)
    (3 * (2 * Gconst * (10 * MASSA_SOL) / C2)) 0
    (by simp only [DiscoAcrecao.build]
        unfold MASSA_SOL; norm_num)
    (by simp only [DiscoAcrecao.build]
        exact le_refl _)
  exact h.2.2.2

/-! ## Ray tracer (`ray_tracer.hpp`) -/

/-- An RGB pixel with linear channels (`Pixel`). -/
structure Pixel where
  r : ℝ
  g : ℝ
  b : ℝ

/-- `Pixel::clamp`. -/
noncomputable def Pixel.clampado (p : Pixel) : Pixel :=
  ⟨max 0 (min 1 p.r), max 0 (min 1 p.g), max 0 (min 1 p.b)⟩

/-- The `Camera` configuration record. -/
structure Camera where
  r_observador : ℝ
  theta_observador : ℝ
  fov_horizontal : ℝ
  fov_vertical : ℝ
  largura : ℕ
  altura : ℕ

/-- The C++ default `Camera()` value. -/
noncomputable def Camera.padrao : Camera :=
  ⟨100, Real.pi / 3, Real.pi / 4, Real.pi / 4, 800, 600⟩

/-- The configuration fields of the C++ class `RayTracer`. -/
structure RayTracer where
  metrica : MetricaSchwarzschild
  disco : DiscoAcrecao
  camera : Camera
  rs : ℝ
  passo_inicial : ℝ
  max_passos : ℕ
  tolerancia_horizonte : ℝ
  usar_fundo : Bool
  num_threads : ℕ

/-- The `RayTracer(massa_solar, taxa_eddington)` constructor: builds the
metric and disk, takes the default camera and scales its observer radius to
`100 rs`, and fixes `passo_inicial = 0.1`, `max_passos = 10000`,
`tolerancia_horizonte = 1.001`, background on, 4 threads. -/
noncomputable def RayTracer.build (massa_solar taxa_eddington : ℝ) : RayTracer :=
  let met := MetricaSchwarzschild.build massa_solar
  { metrica := met
    disco := DiscoAcrecao.build massa_solar taxa_eddington 0
    camera := { Camera.padrao with r_observador := 100 * met.rs }
    rs := met.rs
    passo_inicial := 0.1
    max_passos := 10000
    tolerancia_horizonte := 1.001
    usar_fundo := true
    num_threads := 4 }

/-- `RayTracer::set_camera`: stores the camera and multiplies its observer
radius by `rs` (once per call). -/
noncomputable def set_camera (rt : RayTracer) (cam : Camera) : RayTracer :=
  { rt with camera := { cam with r_observador := cam.r_observador * rt.rs } }

/-- `RayTracer::set_threads`: `num_threads_ = std::max(1, n)`. -/
def set_threads (n : ℤ) : ℕ := (max 1 n).toNat

/-- The clamped radial term `u_r_sq = f·(termo1 - termo2 - termo3)` computed
in the prologue of `RayTracer::tracar_raio`. -/
noncomputable def u_r_sq (rt : RayTracer) (alfa beta : ℝ) : ℝ :=
  let r0 := rt.camera.r_observador
  let theta0 := rt.camera.theta_observador
  let f := 1 - rt.rs / r0
  let u_t := 1 / f
  let u_theta := beta / r0
  let u_phi := alfa / (r0 * Real.sin theta0)
  f * (f * u_t * u_t - r0 * r0 * u_theta * u_theta
    - r0 * r0 * Real.sin theta0 * Real.sin theta0 * u_phi * u_phi)

/-- The initial photon state constructed at the observer by
`RayTracer::tracar_raio`: `u^t = 1/f`, `u^θ = β/r₀`, `u^φ = α/(r₀ sin θ₀)`,
and `u^r` the negative square root of the clamped radial term. -/
noncomputable def estadoInicial (rt : RayTracer) (alfa beta : ℝ) : EstadoGeodesica :=
  let r0 := rt.camera.r_observador
  let theta0 := rt.camera.theta_observador
  let f := 1 - rt.rs / r0
  { t := 0
    r := r0
    theta := theta0
    phi := 0
    u_t := 1 / f
    u_r := -Real.sqrt (max 0 (u_r_sq rt alfa beta))
    u_theta := beta / r0
    u_phi := alfa / (r0 * Real.sin theta0) }

/-- The contraction `g_μν u^μ u^ν` of a state with the Schwarzschild metric
components exposed by `MetricaSchwarzschild`. -/
noncomputable def norma_quadrada (m : MetricaSchwarzschild) (s : EstadoGeodesica) : ℝ :=
  g_tt m s.r * s.u_t * s.u_t + g_rr m s.r * s.u_r * s.u_r
    + g_theta_theta s.r * s.u_theta * s.u_theta
    + g_phi_phi s.r s.theta * s.u_phi * s.u_phi

/-- The post-step polar-angle correction of `RayTracer::tracar_raio`:
reflect at `θ = 0`, then at `θ = π`, flipping `u^θ` at each reflection. -/
noncomputable def refleteTheta (s : EstadoGeodesica) : EstadoGeodesica :=
  let s1 := if s.theta < 0 then
    { s with theta := -s.theta, u_theta := -s.u_theta } else s
  if s1.theta > Real.pi then
    { s1 with theta := 2 * Real.pi - s1.theta, u_theta := -s1.u_theta } else s1

/-! ## C3: the null condition at construction -/

/-- **C3.** For every observer with `0 < rs < r_obs` (and metric radius equal
to the tracer's cached `rs`), whenever the `max(0, ·)` clamp does not fire,
the initial photon state satisfies the Schwarzschild null condition
`g_μν u^μ u^ν = 0` exactly in real arithmetic. -/
theorem estadoInicial_nulo (rt : RayTracer) (alfa beta : ℝ)
    (hm : rt.metrica.rs = rt.rs)
    (hrs : 0 < rt.rs) (hobs : rt.rs < rt.camera.r_observador)
    (hclamp : 0 ≤ u_r_sq rt alfa beta) :
    norma_quadrada rt.metrica (estadoInicial rt alfa beta) = 0 := by
  have hr0 : 0 < rt.camera.r_observador := lt_trans hrs hobs
  have hlt : rt.rs / rt.camera.r_observador < 1 :=
    (div_lt_one hr0).mpr hobs
  have hf : 0 < 1 - rt.rs / rt.camera.r_observador := by linarith
  have hguard : ¬ rt.camera.r_observador ≤ rt.metrica.rs := by
    rw [hm]; exact not_le.mpr hobs
  have hur : (estadoInicial rt alfa beta).u_r *
      (estadoInicial rt alfa beta).u_r = u_r_sq rt alfa beta := by
    show -Real.sqrt (max 0 (u_r_sq rt alfa beta)) *
      -Real.sqrt (max 0 (u_r_sq rt alfa beta)) = _
    rw [neg_mul_neg, Real.mul_self_sqrt (le_max_left _ _),
      max_eq_right hclamp]
  have hR : (estadoInicial rt alfa beta).r = rt.camera.r_observador := rfl
  have hTh : (estadoInicial rt alfa beta).theta =
      rt.camera.theta_observador := rfl
  have hUt : (estadoInicial rt alfa beta).u_t =
      1 / (1 - rt.rs / rt.camera.r_observador) := rfl
  have hUth : (estadoInicial rt alfa beta).u_theta =
      beta / rt.camera.r_observador := rfl
  have hUph : (estadoInicial rt alfa beta).u_phi =
      alfa / (rt.camera.r_observador * Real.sin rt.camera.theta_observador) := rfl
  have hur2 : ∀ c : ℝ, c * (estadoInicial rt alfa beta).u_r *
      (estadoInicial rt alfa beta).u_r = c * u_r_sq rt alfa beta := by
    intro c
    rw [mul_assoc, hur]
  unfold norma_quadrada g_tt g_rr g_theta_theta g_phi_phi
  rw [hR, hTh, hUt, hUth, hUph, if_neg hguard, if_neg hguard, hur2, hm]
  simp only [u_r_sq]
  set s := Real.sin rt.camera.theta_observador with hs
  set r0 := rt.camera.r_observador with hr0def
  set x := beta / r0 with hx
  set y := alfa / (r0 * s) with hy
  set f := 1 - rt.rs / r0 with hfdef
  have hfne : f ≠ 0 := ne_of_gt hf
  field_simp
  ring

/-- The clamp argument of the radially-aimed central ray (`α = β = 0`) is
always nonnegative: it reduces to the square `(f · (1/f))²`. -/
theorem u_r_sq_central (rt : RayTracer) : 0 ≤ u_r_sq rt 0 0 := by
  simp only [u_r_sq, zero_div, mul_zero, zero_mul, sub_zero]
  have h : (1 - rt.rs / rt.camera.r_observador) *
      ((1 - rt.rs / rt.camera.r_observador) *
        (1 / (1 - rt.rs / rt.camera.r_observador)) *
        (1 / (1 - rt.rs / rt.camera.r_observador))) =
      ((1 - rt.rs / rt.camera.r_observador) *
        (1 / (1 - rt.rs / rt.camera.r_observador))) ^ 2 := by ring
  rw [h]
  positivity

/-- Witness for C3: the radially-aimed central ray (`α = β = 0`) of the
default 10-solar-mass tracer is exactly null at construction. -/
theorem estadoInicial_nulo_witness :
    norma_quadrada (RayTracer.build 10 0.1).metrica
      (estadoInicial (RayTracer.build 10 0.1) 0 0) = 0 := by
  have hrs : (0:ℝ) < (RayTracer.build 10 0.1).rs := by
    simp only [RayTracer.build, MetricaSchwarzschild.build]
    unfold Gconst MASSA_SOL C2 Cluz
    norm_num
  refine estadoInicial_nulo (RayTracer.build 10 0.1) 0 0 rfl hrs ?_
    (u_r_sq_central _)
  show (RayTracer.build 10 0.1).rs < 100 * (MetricaSchwarzschild.build 10).rs
  have h : (RayTracer.build 10 0.1).rs = (MetricaSchwarzschild.build 10).rs := rfl
  rw [h] at hrs ⊢
  nlinarith [hrs]

/-! ## C5: the polar-angle reflection -/

/-- **C5, counterexample.** The claim quantifies over every real `θ`; at
`θ = 7` (which exceeds `2π`) the corrected angle is `2π - 7 < 0`, outside
`[0, π]`. -/
theorem refleteTheta_fora_do_intervalo :
    ¬ (0 ≤ (refleteTheta ⟨0, 0, 7, 0, 0, 0, 1, 0⟩).theta ∧
       (refleteTheta ⟨0, 0, 7, 0, 0, 0, 1, 0⟩).theta ≤ Real.pi) := by
  have hpi := Real.pi_lt_d2
  have h7 : ¬ ((7:ℝ) < 0) := by norm_num
  have hgt : (7:ℝ) > Real.pi := by linarith
  unfold refleteTheta
  rw [if_neg h7]
  simp only
  rw [if_pos hgt]
  intro h
  have := h.1
  simp only at this
  linarith

/-- **C5 (amended).** For `θ ∈ [-π, 2π]` — the range reachable by one
integration step from a state with `θ ∈ [0, π]` — the correction returns
`θ ∈ [0, π]`; it flips the sign of `u^θ` exactly when a reflection occurred
(`θ < 0` or `θ > π`), and is the identity otherwise. -/
theorem refleteTheta_intervalo (s : EstadoGeodesica)
    (hlo : -Real.pi ≤ s.theta) (hhi : s.theta ≤ 2 * Real.pi) :
    (0 ≤ (refleteTheta s).theta ∧ (refleteTheta s).theta ≤ Real.pi) ∧
    (s.theta < 0 ∨ s.theta > Real.pi →
      (refleteTheta s).u_theta = -s.u_theta) ∧
    (0 ≤ s.theta → s.theta ≤ Real.pi →
      (refleteTheta s).theta = s.theta ∧ (refleteTheta s).u_theta = s.u_theta) := by
  have hpi := Real.pi_pos
  unfold refleteTheta
  by_cases h1 : s.theta < 0
  · rw [if_pos h1]
    simp only
    have hnot : ¬ (-s.theta > Real.pi) := by push_neg; linarith
    rw [if_neg hnot]
    refine ⟨⟨?_, ?_⟩, fun _ => rfl, fun h0 _ => absurd h1 (not_lt.mpr h0)⟩
    · show (0:ℝ) ≤ -s.theta
      linarith
    · show -s.theta ≤ Real.pi
      linarith
  · rw [if_neg h1]
    push_neg at h1
    by_cases h2 : s.theta > Real.pi
    · rw [if_pos h2]
      refine ⟨⟨?_, ?_⟩, fun _ => rfl, fun _ hle => absurd h2 (not_lt.mpr hle)⟩
      · show (0:ℝ) ≤ 2 * Real.pi - s.theta
        linarith
      · show 2 * Real.pi - s.theta ≤ Real.pi
        linarith
    · rw [if_neg h2]
      push_neg at h2
      exact ⟨⟨h1, h2⟩,
        fun h => h.elim (fun h => absurd h (not_lt.mpr h1)) (fun h => absurd h (not_lt.mpr h2)),
        fun _ _ => ⟨rfl, rfl⟩⟩

/-- Witness for C5 (amended): `θ = 5` lies in `(π, 2π)`; the correction
returns `2π - 5 ∈ [0, π]` and flips `u^θ = 1` to `-1`. -/
theorem refleteTheta_intervalo_witness :
    (0 ≤ (refleteTheta ⟨0, 0, 5, 0, 0, 0, 1, 0⟩).theta ∧
      (refleteTheta ⟨0, 0, 5, 0, 0, 0, 1, 0⟩).theta ≤ Real.pi) ∧
    (refleteTheta ⟨0, 0, 5, 0, 0, 0, 1, 0⟩).u_theta = -1 := by
  have hpi1 := Real.pi_gt_three
  have hpi2 := Real.pi_lt_d2
  have h := refleteTheta_intervalo ⟨0, 0, 5, 0, 0, 0, 1, 0⟩
    (by simp only; linarith) (by simp only; linarith)
  exact ⟨h.1, h.2.1 (Or.inr (by simp only; linarith))⟩

/-! ## Celestial background (`RayTracer::cor_fundo`) -/

/-- Truncation toward zero, the semantics of C++ `static_cast` from `double`
to an integer type and of the quotient inside `std::fmod`. -/
noncomputable def rtrunc (x : ℝ) : ℤ := if 0 ≤ x then ⌊x⌋ else ⌈x⌉

/-- C++ `std::fmod`. -/
noncomputable def fmod (x y : ℝ) : ℝ := x - y * (rtrunc (x / y) : ℝ)

/-- The normalisation `phi = std::fmod(phi, 2π); if (phi < 0) phi += 2π` at
the top of `cor_fundo`. -/
noncomputable def normalizaPhi (phi : ℝ) : ℝ :=
  let p := fmod phi (2 * Real.pi)
  if p < 0 then p + 2 * Real.pi else p

/-- The latitude grid-line test: the `for` loop over
`l = -π/2, -π/2 + π/12, …` (13 values with `l ≤ π/2`), hit when
`|lat - l| < 0.02`. -/
def linha_lat (lat : ℝ) : Prop :=
  ∃ k ∈ Finset.range 13, |lat - (-(Real.pi / 2) + k * (Real.pi / 12))| < 0.02

/-- The longitude grid-line test: the `for` loop over `l = 0, π/12, …`
(24 values with `l < 2π`), hit when `|lon - l| < 0.02` or
`2π - |lon - l| < 0.02`. -/
def linha_lon (lon : ℝ) : Prop :=
  ∃ k ∈ Finset.range 24, |lon - k * (Real.pi / 12)| < 0.02 ∨
    2 * Real.pi - |lon - k * (Real.pi / 12)| < 0.02

open Classical in
/-- `RayTracer::cor_fundo`: purple-blue gradient on the 15° grid lines,
pseudo-random star field elsewhere. -/
noncomputable def cor_fundo (theta phi : ℝ) : Pixel :=
  let phin := normalizaPhi phi
  let lat := theta - Real.pi / 2
  let lon := phin
  if linha_lat lat ∨ linha_lon lon then
    let h := lon / (2 * Real.pi)
    ⟨0.2 + 0.3 * h, 0.1, 0.4 + 0.2 * (1 - h)⟩
  else
    let seed := theta * 100 + phin * 57
    let estrela := ((Real.sin (seed * 12345.6789) + 1) / 2) ^ (100 : ℝ)
    ⟨0.01 + 0.5 * estrela, 0.01 + 0.5 * estrela, 0.03 + 0.5 * estrela⟩

/-! ## The per-ray integration loop (`RayTracer::tracar_raio`) -/

open Classical in
/-- The body of the `for (i = 0; i < max_passos_; i++)` loop of
`tracar_raio`, with the remaining iteration count as fuel.  Exhausted fuel
is the `ERRO` magenta sentinel; otherwise the three termination events are
checked in source order (horizon, disk, escape) and, if none fires, the
state is advanced by one adaptive RK4 step followed by the polar-angle
correction. -/
noncomputable def loopRaio (rt : RayTracer) : ℕ → EstadoGeodesica → Pixel
  | 0, _ => ⟨1, 0, 1⟩
  | n + 1, s =>
    if s.r < rt.rs * rt.tolerancia_horizonte then ⟨0, 0, 0⟩
    else if |s.theta - Real.pi / 2| < 0.01 ∧ no_disco rt.disco s.r then
      let c := intensidade_observada rt.disco s.r s.phi
      ⟨c.r, c.g, c.b⟩
    else if s.r > rt.camera.r_observador * 2 then
      (if rt.usar_fundo then cor_fundo s.theta s.phi else ⟨0.02, 0.02, 0.05⟩)
    else
      loopRaio rt n (refleteTheta (passo_rk4 rt.metrica
        (rt.passo_inicial * Real.sqrt (s.r / rt.rs)) s))

/-- `RayTracer::tracar_raio`, returning the resulting pixel colour. -/
noncomputable def tracar_raio (rt : RayTracer) (alfa beta : ℝ) : Pixel :=
  loopRaio rt rt.max_passos (estadoInicial rt alfa beta)

/-- **C2.** With the constructor's constants (`tolerancia = 1.001`,
`max_passos = 10000`, background enabled), every iteration of the per-ray
loop checks the termination events in the fixed order horizon → disk →
escape: horizon capture (`r < 1.001 rs`) yields black, otherwise a disk hit
(`|θ - π/2| < 0.01` and `r_in ≤ r ≤ r_out`) yields the observed disk
intensity at `(r, φ)`, otherwise escape (`r > 2 r_obs`) yields the celestial
background at `(θ, φ)`, otherwise the ray advances; and exhausting the
`10000`-step budget yields the magenta sentinel `(1, 0, 1)`. -/
theorem eventos_terminacao (rt : RayTracer) (alfa beta : ℝ)
    (s : EstadoGeodesica) (n : ℕ)
    (htol : rt.tolerancia_horizonte = 1.001)
    (hmax : rt.max_passos = 10000)
    (hfundo : rt.usar_fundo = true) :
    (tracar_raio rt alfa beta = loopRaio rt 10000 (estadoInicial rt alfa beta)) ∧
    (loopRaio rt 0 s = ⟨1, 0, 1⟩) ∧
    (s.r < rt.rs * 1.001 → loopRaio rt (n + 1) s = ⟨0, 0, 0⟩) ∧
    (¬ s.r < rt.rs * 1.001 →
      |s.theta - Real.pi / 2| < 0.01 →
      rt.disco.raio_interno ≤ s.r → s.r ≤ rt.disco.raio_externo →
      loopRaio rt (n + 1) s =
        ⟨(intensidade_observada rt.disco s.r s.phi).r,
         (intensidade_observada rt.disco s.r s.phi).g,
         (intensidade_observada rt.disco s.r s.phi).b⟩) ∧
    (¬ s.r < rt.rs * 1.001 →
      ¬ (|s.theta - Real.pi / 2| < 0.01 ∧ no_disco rt.disco s.r) →
      s.r > rt.camera.r_observador * 2 →
      loopRaio rt (n + 1) s = cor_fundo s.theta s.phi) ∧
    (¬ s.r < rt.rs * 1.001 →
      ¬ (|s.theta - Real.pi / 2| < 0.01 ∧ no_disco rt.disco s.r) →
      ¬ s.r > rt.camera.r_observador * 2 →
      loopRaio rt (n + 1) s = loopRaio rt n (refleteTheta (passo_rk4 rt.metrica
        (rt.passo_inicial * Real.sqrt (s.r / rt.rs)) s))) := by
  classical
  rw [← htol, ← hmax]
  refine ⟨?_, rfl, ?_, ?_, ?_, ?_⟩
  · unfold tracar_raio
    rfl
  · intro h
    show (if s.r < rt.rs * rt.tolerancia_horizonte then (⟨0,0,0⟩ : Pixel)
      else _) = _
    rw [if_pos h]
  · intro h1 h2 h3 h4
    show (if s.r < rt.rs * rt.tolerancia_horizonte then (⟨0,0,0⟩ : Pixel)
      else if |s.theta - Real.pi / 2| < 0.01 ∧ no_disco rt.disco s.r then _
      else _) = _
    rw [if_neg h1, if_pos ⟨h2, h3, h4⟩]
  · intro h1 h2 h3
    show (if s.r < rt.rs * rt.tolerancia_horizonte then (⟨0,0,0⟩ : Pixel)
      else if |s.theta - Real.pi / 2| < 0.01 ∧ no_disco rt.disco s.r then _
      else if s.r > rt.camera.r_observador * 2 then _ else _) = _
    rw [if_neg h1, if_neg h2, if_pos h3, if_pos hfundo]
  · intro h1 h2 h3
    show (if s.r < rt.rs * rt.tolerancia_horizonte then (⟨0,0,0⟩ : Pixel)
      else if |s.theta - Real.pi / 2| < 0.01 ∧ no_disco rt.disco s.r then _
      else if s.r > rt.camera.r_observador * 2 then _ else _) = _
    rw [if_neg h1, if_neg h2, if_neg h3]

/-- Witness for C2: a state already inside the horizon of the default
tracer terminates immediately with a black pixel. -/
theorem eventos_terminacao_witness :
    loopRaio (RayTracer.build 10 0.1) 1 ⟨0, 0, 0, 0, 0, 0, 0, 0⟩ = ⟨0, 0, 0⟩ := by
  have h := eventos_terminacao (RayTracer.build 10 0.1) 0 0
    ⟨0, 0, 0, 0, 0, 0, 0, 0⟩ 0 rfl rfl rfl
  refine h.2.2.1 ?_
  show (0:ℝ) < (RayTracer.build 10 0.1).rs * 1.001
  have hrs : (0:ℝ) < (RayTracer.build 10 0.1).rs := by
    simp only [RayTracer.build, MetricaSchwarzschild.build]
    unfold Gconst MASSA_SOL C2 Cluz
    norm_num
  nlinarith

/-! ## Rendering (`RayTracer::renderizar`) -/

/-- The per-pixel work of `processar_bloco`: pixel `(i, j)` maps to impact
parameters and is traced. -/
noncomputable def pixel_raio (rt : RayTracer) (i j : ℕ) : Pixel :=
  let alfa := ((i : ℝ) - (rt.camera.largura : ℝ) / 2) / (rt.camera.largura : ℝ) *
    rt.camera.fov_horizontal * rt.camera.r_observador
  let beta := ((j : ℝ) - (rt.camera.altura : ℝ) / 2) / (rt.camera.altura : ℝ) *
    rt.camera.fov_vertical * rt.camera.r_observador
  tracar_raio rt alfa beta

/-- One image row `j`: the inner `for (i = 0; i < largura; i++)` loop. -/
noncomputable def linha_pixels (rt : RayTracer) (j : ℕ) : List Pixel :=
  (List.range rt.camera.largura).map (fun i => pixel_raio rt i j)

/-- The block of row indices owned by thread `t`:
`inicio = t * (altura / T)` and
`fim = (t == T-1) ? altura : (t+1) * (altura / T)`. -/
def linhas_bloco (T H t : ℕ) : List ℕ :=
  List.range' (t * (H / T))
    ((if t = T - 1 then H else (t + 1) * (H / T)) - t * (H / T))

/-- The row indices written by the `T` threads, in thread order. -/
def ordem_linhas (T H : ℕ) : List ℕ :=
  ((List.range T).map (linhas_bloco T H)).flatten

/-- `RayTracer::renderizar` with `T` threads: every row in every thread's
block is produced by the same pure per-row function and written to its own
pre-allocated slot, so the image is the per-row map over the concatenated
blocks. -/
noncomputable def renderizar (rt : RayTracer) (T : ℕ) : List (List Pixel) :=
  (ordem_linhas T rt.camera.altura).map (linha_pixels rt)

/-- The thread-free reference semantics: row `j` of the image is
`linha_pixels rt j`, for `j = 0, …, altura - 1`. -/
noncomputable def renderizar_seq (rt : RayTracer) : List (List Pixel) :=
  (List.range rt.camera.altura).map (linha_pixels rt)

/-- Flattening `k` uniform blocks of `q` consecutive indices gives the first
`k·q` indices. -/
theorem flatten_blocos_uniformes (q : ℕ) :
    ∀ k : ℕ, ((List.range k).map (fun t => List.range' (t * q) q)).flatten =
      List.range' 0 (k * q) := by
  intro k
  induction k with
  | zero => simp
  | succ k ih =>
    rw [List.range_succ, List.map_append, List.flatten_append, ih]
    simp only [List.map_cons, List.map_nil, List.flatten_cons, List.flatten_nil,
      List.append_nil]
    have h := List.range'_append 0 (k * q) q 1
    simp only [one_mul, zero_add] at h
    rw [h, Nat.succ_mul, Nat.add_comm q (k * q)]

/-- The thread partition covers exactly the rows `0, …, H-1`, each once, in
order: the concatenation of the `T` blocks is `List.range H`. -/
theorem ordem_linhas_eq (T H : ℕ) (hT : 1 ≤ T) :
    ordem_linhas T H = List.range H := by
  obtain ⟨k, rfl⟩ : ∃ k, T = k + 1 := ⟨T - 1, (Nat.succ_pred_eq_of_pos hT).symm⟩
  unfold ordem_linhas
  rw [List.range_succ, List.map_append, List.flatten_append]
  have hmap : (List.range k).map (linhas_bloco (k + 1) H) =
      (List.range k).map (fun t => List.range' (t * (H / (k + 1))) (H / (k + 1))) := by
    refine List.map_congr_left ?_
    intro t ht
    have htk : t < k := List.mem_range.mp ht
    unfold linhas_bloco
    rw [if_neg (by omega : ¬ t = k + 1 - 1)]
    have harith : (t + 1) * (H / (k + 1)) - t * (H / (k + 1)) = H / (k + 1) := by
      rw [Nat.succ_mul, Nat.add_sub_cancel_left]
    rw [harith]
  rw [hmap, flatten_blocos_uniformes]
  have hlast : linhas_bloco (k + 1) H k =
      List.range' (k * (H / (k + 1))) (H - k * (H / (k + 1))) := by
    unfold linhas_bloco
    rw [if_pos (by omega : k = k + 1 - 1)]
  simp only [List.map_cons, List.map_nil, List.flatten_cons, List.flatten_nil,
    List.append_nil, hlast]
  have hle : k * (H / (k + 1)) ≤ H := by
    have h1 : H / (k + 1) * (k + 1) ≤ H := Nat.div_mul_le_self H (k + 1)
    have h2 : k * (H / (k + 1)) ≤ (k + 1) * (H / (k + 1)) :=
      Nat.mul_le_mul_right _ (Nat.le_succ k)
    rw [Nat.mul_comm (k + 1)] at h2
    omega
  have h := List.range'_append 0 (k * (H / (k + 1))) (H - k * (H / (k + 1))) 1
  simp only [one_mul, zero_add] at h
  rw [h, List.range_eq_range']
  congr 1
  omega

/-- **C9.** For every requested thread count `n` (including `n ≤ 0`) and
every height `H ≥ 1`, `set_threads` yields `max(1, n) ≥ 1` threads — so the
rows-per-thread division `altura / num_threads_` never divides by zero —
and the per-thread row blocks partition `[0, H)`: their concatenation is
exactly `List.range H`, so every row (hence every pixel) is written exactly
once. -/
theorem particao_linhas (n : ℤ) (H : ℕ) (_hH : 1 ≤ H) :
    0 < set_threads n ∧ ordem_linhas (set_threads n) H = List.range H := by
  have h1 : 1 ≤ set_threads n := by
    unfold set_threads
    have := le_max_left (1:ℤ) n
    omega
  exact ⟨h1, ordem_linhas_eq _ _ h1⟩

/-- Witness for C9: a negative requested count (`-7`) and height `5`. -/
theorem particao_linhas_witness :
    0 < set_threads (-7) ∧ ordem_linhas (set_threads (-7)) 5 = List.range 5 :=
  particao_linhas (-7) 5 (by norm_num)

/-- **C6.** Renders with identical configuration are identical for every
pair of thread counts `T1, T2 ≥ 1`; both equal the thread-free per-pixel
reference semantics, so each pixel's colour depends only on its own
`(i, j)` through `tracar_raio`, independent of the thread partitioning. -/
theorem renderizacao_determinista (rt : RayTracer) (T1 T2 : ℕ)
    (h1 : 1 ≤ T1) (h2 : 1 ≤ T2) :
    renderizar rt T1 = renderizar rt T2 ∧
    renderizar rt T1 = renderizar_seq rt ∧
    renderizar_seq rt = (List.range rt.camera.altura).map
      (fun j => (List.range rt.camera.largura).map (fun i => pixel_raio rt i j)) := by
  have e : ∀ T, 1 ≤ T → renderizar rt T = renderizar_seq rt := by
    intro T hT
    unfold renderizar renderizar_seq
    rw [ordem_linhas_eq _ _ hT]
  exact ⟨(e T1 h1).trans (e T2 h2).symm, e T1 h1, rfl⟩

/-- Witness for C6: one thread versus sixteen threads on the default
configuration. -/
theorem renderizacao_determinista_witness :
    renderizar (RayTracer.build 10 0.1) 1 = renderizar (RayTracer.build 10 0.1) 16 :=
  (renderizacao_determinista (RayTracer.build 10 0.1) 1 16
    (by norm_num) (by norm_num)).1

/-! ## PPM sink (`RayTracer::salvar_ppm`) -/

/-- One channel byte: `static_cast<uint8_t>(c * 255)` — truncation toward
zero of the scaled channel. -/
noncomputable def canal_byte (c : ℝ) : ℤ := rtrunc (c * 255)

/-- The three bytes written for one pixel: the pixel is clamped first
(`p.clamp()`), then each channel is scaled and truncated. -/
noncomputable def pixel_bytes (p : Pixel) : List ℤ :=
  [canal_byte p.clampado.r, canal_byte p.clampado.g, canal_byte p.clampado.b]

/-- The PPM body: the row-major double loop of `salvar_ppm`. -/
noncomputable def corpo_ppm (img : List (List Pixel)) : List ℤ :=
  (img.map (fun row => (row.map pixel_bytes).flatten)).flatten

/-- The PPM header `"P6\n" << largura << " " << altura << "\n255\n"`. -/
def cabecalho_ppm (largura altura : ℕ) : String :=
  "P6\n" ++ toString largura ++ " " ++ toString altura ++ "\n255\n"

/-- `RayTracer::salvar_ppm`, modelled as the header string (with the
dimensions read back from the image as in the source) paired with the body
bytes. -/
noncomputable def salvar_ppm (img : List (List Pixel)) : String × List ℤ :=
  (cabecalho_ppm img.headI.length img.length, corpo_ppm img)

/-- **C7, counterexample.** For the single-pixel raster with red channel
`0.999`, the written byte is `⌊254.745⌋ = 254`, but the claimed formula
`round(clamp(c, 0, 1)·255)` gives `255`: the source truncates, it does not
round. -/
theorem corpo_ppm_nao_arredonda :
    corpo_ppm [[⟨999/1000, 0, 0⟩]] ≠
      [round (max 0 (min 1 ((999:ℝ)/1000)) * 255),
       round (max 0 (min 1 ((0:ℝ))) * 255),
       round (max 0 (min 1 ((0:ℝ))) * 255)] := by
  have hL : corpo_ppm [[⟨999/1000, 0, 0⟩]] = [254, 0, 0] := by
    simp only [corpo_ppm, pixel_bytes, Pixel.clampado, canal_byte, rtrunc,
      List.map_cons, List.map_nil, List.flatten_cons, List.flatten_nil,
      List.append_nil]
    norm_num [Int.floor_eq_iff]
  have hR : round (max 0 (min 1 ((999:ℝ)/1000)) * 255) = 255 := by
    rw [round_eq]
    norm_num [Int.floor_eq_iff]
  rw [hL, hR]
  have h0 : round (max 0 (min 1 ((0:ℝ))) * 255) = 0 := by
    norm_num
  rw [h0]
  simp

/-- `pixel_bytes` is the floor of the clamped, scaled channels (for the
clamped value the cast's truncation toward zero is the floor). -/
theorem pixel_bytes_eq_floor (p : Pixel) :
    pixel_bytes p = [⌊max 0 (min 1 p.r) * 255⌋, ⌊max 0 (min 1 p.g) * 255⌋,
      ⌊max 0 (min 1 p.b) * 255⌋] := by
  have h : ∀ c : ℝ, canal_byte (max 0 (min 1 c)) = ⌊max 0 (min 1 c) * 255⌋ := by
    intro c
    unfold canal_byte rtrunc
    rw [if_pos (by positivity)]
  simp only [pixel_bytes, Pixel.clampado]
  rw [h, h, h]

/-- The body bytes are the row-major flattening of the per-pixel triples. -/
theorem corpo_ppm_flatten (img : List (List Pixel)) :
    corpo_ppm img = (img.flatten.map pixel_bytes).flatten := by
  unfold corpo_ppm
  induction img with
  | nil => rfl
  | cons row rest ih =>
    simp only [List.map_cons, List.flatten_cons, List.map_append,
      List.flatten_append]
    rw [ih]

/-- Each pixel contributes exactly three bytes. -/
theorem linha_bytes_length (row : List Pixel) :
    ((row.map pixel_bytes).flatten).length = 3 * row.length := by
  induction row with
  | nil => rfl
  | cons p ps ih =>
    simp only [List.map_cons, List.flatten_cons, List.length_append, ih,
      List.length_cons]
    show 3 + 3 * ps.length = 3 * (ps.length + 1)
    ring

/-- The body length over a raster of uniform row length. -/
theorem corpo_ppm_length (img : List (List Pixel)) (W : ℕ)
    (hW : ∀ row ∈ img, row.length = W) :
    (corpo_ppm img).length = 3 * (W * img.length) := by
  induction img with
  | nil => rfl
  | cons row rest ih =>
    have hrow : row.length = W := hW row (List.mem_cons_self row rest)
    have hrest : ∀ r ∈ rest, r.length = W :=
      fun r hr => hW r (List.mem_cons_of_mem row hr)
    have hcons : corpo_ppm (row :: rest) =
        (row.map pixel_bytes).flatten ++ corpo_ppm rest := rfl
    rw [hcons, List.length_append, ih hrest, linha_bytes_length, hrow,
      List.length_cons]
    ring

/-- **C7 (amended).** The PPM output is the header `"P6\n<W> <H>\n255\n"`
followed by exactly `W·H` RGB byte triples in row-major order, each byte
being `trunc(clamp(c, 0, 1)·255)` — the floor, not the round, of the scaled
clamped channel. -/
theorem salvar_ppm_formato (img : List (List Pixel)) (W H : ℕ)
    (hH : img.length = H) (hW : ∀ row ∈ img, row.length = W) :
    corpo_ppm img = (img.flatten.map (fun p =>
      [⌊max 0 (min 1 p.r) * 255⌋, ⌊max 0 (min 1 p.g) * 255⌋,
       ⌊max 0 (min 1 p.b) * 255⌋])).flatten ∧
    (corpo_ppm img).length = 3 * (W * H) ∧
    (1 ≤ H → (salvar_ppm img).1 = cabecalho_ppm W H ∧
      (salvar_ppm img).2 = corpo_ppm img) := by
  refine ⟨?_, ?_, ?_⟩
  · rw [corpo_ppm_flatten,
      List.map_congr_left (fun p _ => pixel_bytes_eq_floor p)]
  · rw [corpo_ppm_length img W hW, hH]
  · intro h1
    obtain ⟨row, rest, rfl⟩ : ∃ row rest, img = row :: rest := by
      cases img with
      | nil => simp at hH; omega
      | cons row rest => exact ⟨row, rest, rfl⟩
    refine ⟨?_, rfl⟩
    show cabecalho_ppm (row :: rest).headI.length (row :: rest).length = _
    rw [show (row :: rest).headI = row from rfl,
      hW row (List.mem_cons_self row rest), hH]

/-- Witness for C7 (amended): a concrete 2×1 raster with an out-of-range
channel. -/
theorem salvar_ppm_formato_witness :
    (corpo_ppm [[⟨2, 0.5, -1⟩, ⟨0, 0, 0⟩]]).length = 3 * (2 * 1) :=
  (salvar_ppm_formato [[⟨2, 0.5, -1⟩, ⟨0, 0, 0⟩]] 2 1 rfl
    (by intro row hrow
        simp only [List.mem_singleton] at hrow
        rw [hrow, List.length_cons, List.length_cons, List.length_nil])).2.1

/-! ## C8: the camera setter -/

/-- **C8, counterexample.** Calling `set_camera` twice with the same camera
value does *not* leave `cam.r_observador · rs²` in the tracer: the second
call overwrites the stored camera with `cam` again, so the stored radius is
still `cam.r_observador · rs` (and `rs ≠ 1` for the default tracer). -/
theorem set_camera_nao_quadra :
    (set_camera (set_camera (RayTracer.build 10 0.1) Camera.padrao)
        Camera.padrao).camera.r_observador ≠
      Camera.padrao.r_observador * (RayTracer.build 10 0.1).rs ^ 2 := by
  show (100:ℝ) * (RayTracer.build 10 0.1).rs ≠
    100 * (RayTracer.build 10 0.1).rs ^ 2
  have h : (RayTracer.build 10 0.1).rs =
      2 * (Gconst * (10 * MASSA_SOL) / C2) := rfl
  rw [h]
  unfold Gconst MASSA_SOL C2 Cluz
  norm_num

/-- **C8 (amended).** Each `set_camera(cam)` call first overwrites the stored
camera with `cam` and then multiplies the stored radius by `rs` exactly
once: after one call the stored radius is `cam.r_observador · rs`; repeating
the call with the same camera value is idempotent (still
`cam.r_observador · rs`); the double scaling `cam.r_observador · rs²` arises
only when the stored camera is fed back into a second call. -/
theorem set_camera_escala (rt : RayTracer) (cam : Camera) :
    (set_camera rt cam).camera.r_observador = cam.r_observador * rt.rs ∧
    set_camera (set_camera rt cam) cam = set_camera rt cam ∧
    (set_camera (set_camera rt cam)
        ((set_camera rt cam).camera)).camera.r_observador =
      cam.r_observador * rt.rs * rt.rs :=
  ⟨rfl, rfl, rfl⟩

end BuracoNegro
